import Mathlib

/-!
Verification development for the FFmpegFile video reader
(src/FFmpeg/FFmpegFile.cpp).

The reader exposes frame-accurate random access over a video container.
This file embeds the pure logic of the reader as executable Lean
definitions and proves properties of them:

- the frame/PTS mapping (the two conversion helpers live in the header
  FFmpegFile.h, which is not part of the provided sources; they are
  modelled from the specification text);
- the out-of-range clamp at the top of FFmpegFile::decode;
- the frame-count derivation of FFmpegFile::getStreamFrames;
- the metadata inspection of FFmpegFile::getColorspace;
- the converter cache of FFmpegFile::Stream::getConvertCtx;
- the buffer-size accessors and the constructor allocation;
- the stream-registration loop of the constructor;
- the decode loop of FFmpegFile::decode, embedded as a step function
  over an explicit state, driven by a sequence of environment events
  (packet reads and decoder responses), with the number of seek
  operations recorded in the state.

C integer division on int64_t truncates toward zero, which is Int.tdiv.
-/

namespace FFmpegFileM

/-- Modelled from the spec: `pts_to_frame(pts) = ((pts - start_pts) * fps_num
* tb_num) / (fps_den * tb_den)` with truncating integer division. The
function Stream::ptsToFrame is declared in FFmpegFile.h, which is not among
the provided sources. -/
def ptsToFrame (fpsNum fpsDen tbNum tbDen startPTS pts : Int) : Int :=
  Int.tdiv ((pts - startPTS) * fpsNum * tbNum) (fpsDen * tbDen)

/-- Modelled from the spec: `frame_to_pts(f) = (f * fps_den * tb_den) /
(fps_num * tb_num) + start_pts` with truncating integer division. The
function Stream::frameToPts is declared in FFmpegFile.h, which is not among
the provided sources. -/
def frameToPts (fpsNum fpsDen tbNum tbDen startPTS f : Int) : Int :=
  Int.tdiv (f * fpsDen * tbDen) (fpsNum * tbNum) + startPTS

/-- The out-of-range handling at the top of FFmpegFile::decode
(FFmpegFile.cpp lines 771-785). The requested frame is an int; the stream
field _frames is the caller-visible frame count. A thrown
std::runtime_error is modelled as Except.error; the returned value is the
(possibly clamped) frame with which the call proceeds. -/
def decodeClamp (frames frame : Int) (loadNearest : Bool) : Except String Int :=
  if frame < 0 then
    if loadNearest then Except.ok 0 else Except.error "Missing frame"
  else if frame ≥ frames then
    if loadNearest then Except.ok (frames - 1) else Except.error "Missing frame"
  else
    Except.ok frame

/-- AV_TIME_BASE of libavutil, the unit of AVFormatContext::duration. -/
def AV_TIME_BASE : Int := 1000000

/-- The duration-derived branch of FFmpegFile::getStreamFrames
(FFmpegFile.cpp lines 343-379): ceiling division of (duration - 1) frames,
then the stream frame count is preferred when positive and within 1. -/
def framesFromDuration (duration fpsNum fpsDen nbFrames : Int) : Int :=
  let divisor := AV_TIME_BASE * fpsDen
  let frames := Int.tdiv ((duration - 1) * fpsNum + divisor - 1) divisor
  if 0 < nbFrames ∧ (frames - nbFrames).natAbs ≤ 1 then nbFrames else frames

/-- FFmpegFile::getStreamFrames (FFmpegFile.cpp lines 331-448): the cascade
of frame-count sources. `duration` is AVFormatContext::duration, `nbFrames`
is AVStream::nb_frames, `streamDuration` is AVStream::duration in the
stream timebase `tbNum/tbDen`, and `maxPts` is the maximal packet PTS found
by the final measuring scan (that scan itself is packet input and is taken
as a parameter here). -/
def getStreamFrames (duration fpsNum fpsDen nbFrames streamDuration tbNum tbDen
    startPTS maxPts : Int) : Int :=
  let frames0 : Int :=
    if duration ≠ 0 then framesFromDuration duration fpsNum fpsDen nbFrames else 0
  let frames1 : Int := if frames0 = 0 then nbFrames else frames0
  let frames2 : Int :=
    if frames1 = 0 then Int.tdiv (streamDuration * tbNum * fpsNum) (tbDen * fpsDen)
    else frames1
  if frames2 = 0 then 1 + ptsToFrame fpsNum fpsDen tbNum tbDen startPTS maxPts
  else frames2

/-- ASCII lower-casing of one character, the av_toupper normalisation of
libavutil flipped to lower case (only the 26 ASCII letters change). -/
def asciiLower (c : Char) : Char :=
  if 65 ≤ c.toNat ∧ c.toNat ≤ 90 then Char.ofNat (c.toNat + 32) else c

/-- Case-insensitive prefix test on character lists. -/
def ciCharsPrefix : List Char → List Char → Bool
  | [], _ => true
  | _ :: _, [] => false
  | a :: as, b :: bs => (asciiLower a == asciiLower b) && ciCharsPrefix as bs

/-- Case-insensitive prefix test, the key matching performed by libavutil
av_dict_get when AV_DICT_MATCH_CASE is not set and AV_DICT_IGNORE_SUFFIX
is set: the search key must be a prefix of the entry key, compared
case-insensitively. This is also the comparison strncasecmp(v, lit, n)
performs when lit has length n. -/
def ciKeyMatch (key entryKey : String) : Bool :=
  ciCharsPrefix key.data entryKey.data

/-- Model of av_dict_get(m, key, NULL, AV_DICT_IGNORE_SUFFIX): first entry
whose key starts (case-insensitively) with the search key. -/
def avDictGet (key : String) : List (String × String) → Option String
  | [] => none
  | (k, v) :: rest => if ciKeyMatch key k then some v else avDictGet key rest

/-- FFmpegFile::getColorspace (FFmpegFile.cpp lines 658-707). The metadata
dictionary is a key/value list; `isYUVsrc` is the result of isYUV(). The
source performs a second av_dict_get with the lower-cased key when the
first lookup misses, but discards that result (the assignment to t is
missing), so that call has no effect and is not modelled. -/
def getColorspace (metadata : List (String × String)) (isYUVsrc : Bool) : String :=
  match avDictGet "uk.co.thefoundry.Colorspace" metadata with
  | some v => v
  | none =>
    match avDictGet "com.arri.camera.ColorGammaSxS" metadata with
    | some v =>
      if ciKeyMatch "LOG-C" v then "AlexaV3LogC"
      else if ciKeyMatch "REC-709" v then "rec709"
      else if isYUVsrc then "Gamma2.2" else "Gamma1.8"
    | none => if isYUVsrc then "Gamma2.2" else "Gamma1.8"

/-- Cached-converter fields of FFmpegFile::Stream relevant to
getConvertCtx: the reset flag flipped by colour-matrix override changes and
the cached SwsContext pointer (abstracted to an Option over an opaque
handle number, none standing for NULL). -/
structure ConvState where
  resetConvertCtx : Bool
  convertCtx : Option Nat
deriving Repr, DecidableEq

/-- FFmpegFile::Stream::getConvertCtx (FFmpegFile.cpp lines 135-228).
`builtCtx`/`buildOk` stand for the result of sws_getContext and
`configResult` for the return value of sws_setColorspaceDetails. The
source checks `configResult` only with assert(result != -1) and keeps and
returns the context unchanged in every case; no path frees or clears
_convertCtx after a configuration failure. -/
def getConvertCtx (st : ConvState) (srcIsYUV : Bool) (builtCtx : Nat)
    (buildOk : Bool) (configResult : Int) : Option Nat × ConvState :=
  let st := if st.resetConvertCtx then ConvState.mk false none else st
  match st.convertCtx with
  | some c => (some c, st)
  | none =>
    let ctx := if buildOk then some builtCtx else none
    let st := ConvState.mk st.resetConvertCtx ctx
    if srcIsYUV = false then (ctx, st)
    else
      -- sws_setColorspaceDetails(...) is called here; its result feeds only
      -- assert(result != -1) and the state is unchanged by the result
      let _ := configResult
      (ctx, st)

/-- Bytes per sample as used by the constructor allocation
(FFmpegFile.cpp lines 620-625): sizeof(unsigned short) for bit depth over
8, sizeof(unsigned char) otherwise. -/
def pixelDepthOf (bitDepth : Nat) : Nat := if 8 < bitDepth then 2 else 1

/-- Size of the output buffer allocated when the first stream is
registered (FFmpegFile.cpp line 624): width * height * 3 * pixelDepth,
independent of the component count. -/
def allocatedBufferSize (width height bitDepth : Nat) : Nat :=
  width * height * 3 * pixelDepthOf bitDepth

/-- Component-count promotion performed on the stream descriptor
(FFmpegFile.cpp lines 562-565): fewer than 3 components is promoted to 3. -/
def promoteComponents (n : Nat) : Nat := if n < 3 then 3 else n

/-- FFmpegFile::getRowSize (FFmpegFile.cpp lines 1270-1281). -/
def getRowSize (numComponents width bitDepth : Nat) : Nat :=
  if 8 < bitDepth then numComponents * width * 2 else numComponents * width

/-- FFmpegFile::getBufferSize (FFmpegFile.cpp lines 1283-1287). -/
def getBufferSize (numComponents width height bitDepth : Nat) : Nat :=
  getRowSize numComponents width bitDepth * height

/-- One candidate stream of the container as seen by the constructor loop
(FFmpegFile.cpp lines 483-629): whether the AVStream and its codec pointer
are valid, whether it is a video stream, whether avcodec_find_decoder
found a decoder, and whether avcodec_open2 succeeded. -/
structure CandidateStream where
  hasCodec : Bool
  isVideo : Bool
  decoderFound : Bool
  openOk : Bool
deriving Repr, DecidableEq

/-- Whether the constructor loop registers a candidate stream: every skip
test of the loop must pass. -/
def registersStream (c : CandidateStream) : Bool :=
  c.hasCodec && c.isVideo && c.decoderFound && c.openOk

/-- The constructor loop over all container streams (FFmpegFile.cpp lines
479-629), returning the number of registered streams and the final value
of the local flag `unsuported_codec`. The flag is initialised to false
and no statement in the loop assigns it, which the fold mirrors by
passing acc.2 through unchanged. -/
def openLoop (candidates : List CandidateStream) : Nat × Bool :=
  candidates.foldl
    (fun acc c => (if registersStream c then acc.1 + 1 else acc.1, acc.2))
    (0, false)

/-- The error selection after the constructor loop (FFmpegFile.cpp lines
630-632): when no stream was registered, the message depends on the
`unsuported_codec` flag. -/
def openErrorMsg (candidates : List CandidateStream) : Option String :=
  let r := openLoop candidates
  if r.1 = 0 then
    some (if r.2 then "unsupported codec..." else "unable to find video stream")
  else none

/-! ## The decode loop of FFmpegFile::decode

The loop (FFmpegFile.cpp lines 846-1205) is embedded as a step function
over an explicit state. One step is one execution of the loop body; the
environment (the container and the codec) is an event supplied per step:
the result of av_read_frame together with the packet timestamps, and the
behaviour of avcodec_decode_video2 for whatever decode call the body makes.
Each call of seekFrame increments the `seeks` counter. -/

/-- Per-call constants of a decode call: the stream timing parameters used
by ptsToFrame, the codec delay bound used by the stall detector (the value
of Stream::getCodecDelay, a codec property), and the loadNearest flag. -/
structure DecParams where
  fpsNum : Int
  fpsDen : Int
  tbNum : Int
  tbDen : Int
  startPTS : Int
  codecDelay : Nat
  loadNearest : Bool
deriving Repr, DecidableEq

/-- Landing-frame computation of the decode loop, ptsToFrame applied with
the stream parameters. -/
def DecParams.ptsToFrameP (p : DecParams) (pts : Int) : Int :=
  ptsToFrame p.fpsNum p.fpsDen p.tbNum p.tbDen p.startPTS pts

/-- Mutable state of one decode call: the stream descriptor fields touched
by the loop plus the locals of FFmpegFile::decode. `frame` is the local
`frame` variable (mutated by the EOF reclamp), `lastSeekedFrame` is
negative when no seek is in progress, `awaiting` is
awaitingFirstDecodeAfterSeek, and `seeks` counts seekFrame calls. -/
structure DecodeState where
  frames : Int
  decodeNextFrameIn : Int
  decodeNextFrameOut : Int
  accumDecodeLatency : Nat
  ptsSeen : Bool
  tsIsDts : Bool
  frame : Int
  lastSeekedFrame : Int
  awaiting : Bool
  retriesRemaining : Nat
  seeks : Nat
deriving Repr, DecidableEq

/-- Result of one av_read_frame call: a packet (with its stream-relevance
and its two optional timestamps, none standing for AV_NOPTS_VALUE), end of
file, or a read error. -/
inductive ReadResult where
  | packet (relevant : Bool) (pts dts : Option Int)
  | endOfFile
  | readError
deriving Repr, DecidableEq

/-- Environment behaviour for one loop iteration: the av_read_frame result
(consulted only when the body reads), whether avcodec_decode_video2 fails
and whether it outputs a frame (consulted only when the body decodes), and
whether av_seek_frame succeeds (consulted only when the body seeks). -/
structure DecodeEvent where
  read : ReadResult
  decodeFails : Bool
  frameDecoded : Bool
  seekOk : Bool
deriving Repr, DecidableEq

/-- Outcome of one loop iteration: continue looping, finish with a
picture, or fail with the stored error message. -/
inductive StepRes where
  | cont (s : DecodeState)
  | done (s : DecodeState)
  | fail (s : DecodeState) (msg : String)
deriving Repr, DecidableEq

/-- The state reset performed around each recovery seekFrame call
(FFmpegFile.cpp lines 830-836, 876-884 and 1192-1199): record the seek
target, invalidate both cursors, clear the accumulated latency and set
awaitingFirstDecodeAfterSeek; one seek operation is counted. -/
def seekReset (target : Int) (s : DecodeState) : DecodeState :=
  { s with lastSeekedFrame := target, decodeNextFrameIn := -1,
           decodeNextFrameOut := -1, accumDecodeLatency := 0,
           awaiting := true, seeks := s.seeks + 1 }

/-- Error message used by seekFrame on a native seek failure
(FFmpegFile.cpp line 741, prefix of the translated message). -/
def seekFailMsg : String := "FFmpeg Reader failed to seek frame: "

/-- Tail of the loop body after a decode call (FFmpegFile.cpp lines
1077-1205): frame bookkeeping on success, stall detection and recovery
otherwise. `decodeAttempted` and `frameDecoded` are the locals of the
body. -/
def afterDecode (p : DecParams) (s : DecodeState) (e : DecodeEvent)
    (decodeAttempted frameDecoded : Bool) : StepRes :=
  if frameDecoded then
    let s := { s with awaiting := false }
    if s.decodeNextFrameOut = s.frame then
      StepRes.done { s with decodeNextFrameOut := s.decodeNextFrameOut + 1 }
    else
      StepRes.cont { s with decodeNextFrameOut := s.decodeNextFrameOut + 1 }
  else if decodeAttempted then
    let s := { s with accumDecodeLatency := s.accumDecodeLatency + 1 }
    if p.codecDelay < s.accumDecodeLatency then
      if s.awaiting then
        if 0 < s.decodeNextFrameOut then
          let s := seekReset (s.decodeNextFrameOut - 1) s
          if e.seekOk then StepRes.cont s else StepRes.fail s seekFailMsg
        else if 0 < s.retriesRemaining then
          let s := seekReset s.frame
            { s with retriesRemaining := s.retriesRemaining - 1 }
          if e.seekOk then StepRes.cont s else StepRes.fail s seekFailMsg
        else
          StepRes.fail s
            "FFmpeg Reader failed to find decode reference frame, possible file corruption"
      else
        if 0 < s.retriesRemaining then
          let s := seekReset s.frame
            { s with retriesRemaining := s.retriesRemaining - 1 }
          if e.seekOk then StepRes.cont s else StepRes.fail s seekFailMsg
        else
          StepRes.fail s
            "FFmpeg Reader detected decoding stall, possible file corruption"
    else StepRes.cont s
  else StepRes.cont s

/-- Feeding the current packet to the decoder (FFmpegFile.cpp lines
997-1047): advance decodeNextFrameIn, call avcodec_decode_video2 and fall
through to the common tail. -/
def feedPacket (p : DecParams) (s : DecodeState) (e : DecodeEvent) : StepRes :=
  let s := { s with decodeNextFrameIn := s.decodeNextFrameIn + 1 }
  if e.decodeFails then
    StepRes.fail s "FFmpeg Reader failed to decode frame: "
  else afterDecode p s e true e.frameDecoded

/-- Resynchronisation on an invalid landing (FFmpegFile.cpp lines
944-983): wind the seek target back one frame; when that would go below
zero, either switch from PTS to DTS and restart from the requested frame
(possible only once, and only when no PTS was ever seen), or fail. The
walk-back and switch seeks change no cursor fields, matching the source. -/
def walkBack (s : DecodeState) (e : DecodeEvent) : StepRes :=
  if s.lastSeekedFrame - 1 < 0 then
    if s.tsIsDts = false ∧ s.ptsSeen = false then
      let s := { s with tsIsDts := true, lastSeekedFrame := s.frame,
                        seeks := s.seeks + 1 }
      if e.seekOk then StepRes.cont s else StepRes.fail s seekFailMsg
    else
      StepRes.fail s
        "FFmpeg Reader failed to find timing reference frame, possible file corruption"
  else
    let s := { s with lastSeekedFrame := s.lastSeekedFrame - 1,
                      seeks := s.seeks + 1 }
    if e.seekOk then StepRes.cont s else StepRes.fail s seekFailMsg

/-- Frame-index synchronisation against one packet timestamp
(FFmpegFile.cpp lines 926-993): an absent timestamp or an overshoot
landing winds the seek back; a valid landing sets both cursors, ends the
seek and feeds this packet to the decoder. -/
def resyncPacket (p : DecParams) (s : DecodeState) (e : DecodeEvent)
    (ts : Option Int) : StepRes :=
  match ts with
  | none => walkBack s e
  | some t =>
    if s.lastSeekedFrame < p.ptsToFrameP t then walkBack s e
    else
      let landing := p.ptsToFrameP t
      feedPacket p
        { s with decodeNextFrameOut := landing, decodeNextFrameIn := landing,
                 lastSeekedFrame := -1 } e

/-- Handling of a packet of the selected video stream (FFmpegFile.cpp
lines 910-1047): record a seen PTS, resynchronise when a seek is in
progress, otherwise feed the packet. -/
def relevantPacket (p : DecParams) (s : DecodeState) (e : DecodeEvent)
    (pts dts : Option Int) : StepRes :=
  let s := if pts ≠ none then { s with ptsSeen := true } else s
  if 0 ≤ s.lastSeekedFrame then
    resyncPacket p s e (if s.tsIsDts then dts else pts)
  else feedPacket p s e

/-- One iteration of the decode loop (FFmpegFile.cpp lines 851-1205). -/
def decodeStep (p : DecParams) (s : DecodeState) (e : DecodeEvent) : StepRes :=
  if s.decodeNextFrameIn < s.frames then
    match e.read with
    | ReadResult.endOfFile =>
      -- getStreamFrames() was probably wrong: correct _frames, and with
      -- loadNearest reclamp the target and reseek (lines 871-888)
      let s := { s with frames := s.decodeNextFrameIn }
      if p.loadNearest then
        let f := s.frames - 1
        let s := seekReset f { s with frame := f }
        if e.seekOk then StepRes.cont s else StepRes.fail s seekFailMsg
      else StepRes.cont s
    | ReadResult.readError =>
      StepRes.fail s "FFmpeg Reader failed to read frame: "
    | ReadResult.packet relevant pts dts =>
      if relevant then relevantPacket p s e pts dts else StepRes.cont s
  else
    -- no more frames to read: pump the decoder with a null packet
    -- (lines 1057-1075)
    if e.decodeFails then
      StepRes.fail s "FFmpeg Reader failed to decode frame: "
    else afterDecode p s e true e.frameDecoded

/-- Outcome of a whole decode call driven by a finite sequence of
environment events: either the events ran out with the loop still
spinning, or the loop finished (hasPicture, or a failure message). -/
inductive RunRes where
  | outOfEvents (s : DecodeState)
  | finished (s : DecodeState) (hasPicture : Bool) (msg : Option String)
deriving Repr, DecidableEq

/-- Driver of the decode loop over a finite event sequence. -/
def runDecode (p : DecParams) (s : DecodeState) : List DecodeEvent → RunRes
  | [] => RunRes.outOfEvents s
  | e :: es =>
    match decodeStep p s e with
    | StepRes.cont s2 => runDecode p s2 es
    | StepRes.done s2 => RunRes.finished s2 true none
    | StepRes.fail s2 m => RunRes.finished s2 false (some m)

/-- Number of seek operations recorded at the end of a run. -/
def RunRes.seeks : RunRes → Nat
  | RunRes.outOfEvents s => s.seeks
  | RunRes.finished s _ _ => s.seeks

/-- State of the stream descriptor and decode locals right after the
early-out clamp of FFmpegFile::decode (lines 800-839): the retry budget is
max(1, maxRetries); if the requested frame is not the next expected output
frame, an initial seek is performed. `prevIn`, `prevOut`, `ptsSeen0`,
`tsIsDts0` and `latency0` are descriptor fields persisting from earlier
calls on the same reader. -/
def decodeBase (frames0 prevIn prevOut : Int) (ptsSeen0 tsIsDts0 : Bool)
    (latency0 : Nat) (maxRetries : Int) (frame : Int) : DecodeState :=
  { frames := frames0, decodeNextFrameIn := prevIn,
    decodeNextFrameOut := prevOut, accumDecodeLatency := latency0,
    ptsSeen := ptsSeen0, tsIsDts := tsIsDts0, frame := frame,
    lastSeekedFrame := -1, awaiting := false,
    retriesRemaining := (max 1 maxRetries).toNat, seeks := 0 }

def decodeInit (frames0 prevIn prevOut : Int) (ptsSeen0 tsIsDts0 : Bool)
    (latency0 : Nat) (maxRetries : Int) (frame : Int) : DecodeState :=
  let base := decodeBase frames0 prevIn prevOut ptsSeen0 tsIsDts0 latency0
    maxRetries frame
  if frame ≠ prevOut then seekReset frame base else base

/-- Local part of the seek potential: remaining walk-back budget of the
current seek, or of the frame the last seek landed at while no frame has
been decoded since. -/
def localBudget (s : DecodeState) : Nat :=
  if 0 ≤ s.lastSeekedFrame then (s.lastSeekedFrame + 1).toNat
  else if s.awaiting then (s.decodeNextFrameOut + 1).toNat
  else 0

/-- Restart budget of a decode call: remaining stall retries, the one
possible PTS-to-DTS switch, and the number of times _frames can still
strictly decrease at an EOF correction. -/
def restartBudget (s : DecodeState) : Nat :=
  s.retriesRemaining + (if s.tsIsDts then 0 else 1) + (s.frames + 1).toNat

/-- Seek potential of a decode-loop state: an upper bound on the number of
seek operations any continuation of the run can still perform, for streams
whose frame count at call entry was T. -/
def phi (T : Int) (s : DecodeState) : Nat :=
  localBudget s + restartBudget s * (T.toNat + 1)

/-- Inductive invariant of the decode loop for a stream whose frame count
at call entry was T: frame numbers stay below T, a negative corrected
frame count shuts off packet reading, and no output frame has been
produced while a seek is being resynchronised. -/
def DecInv (T : Int) (s : DecodeState) : Prop :=
  s.frames ≤ T ∧
  s.frame ≤ T - 1 ∧
  (0 ≤ s.lastSeekedFrame → s.lastSeekedFrame ≤ T - 1) ∧
  (s.awaiting = true → s.decodeNextFrameOut ≤ T - 1) ∧
  (s.frames < 0 → s.frames ≤ s.decodeNextFrameIn) ∧
  (0 ≤ s.lastSeekedFrame → s.decodeNextFrameIn < s.frames →
    s.decodeNextFrameOut = -1) ∧
  (s.awaiting = true → 0 ≤ s.lastSeekedFrame → s.decodeNextFrameOut = -1)

/-- Parameters of the concrete decode run used to analyse the seek count:
fps 1/1, timebase 1/1, start PTS 0, codec delay 0, loadNearest false. -/
def cexParams : DecParams :=
  { fpsNum := 1, fpsDen := 1, tbNum := 1, tbDen := 1, startPTS := 0,
    codecDelay := 0, loadNearest := false }

/-- A relevant packet carrying no timestamp at all (both PTS and DTS are
AV_NOPTS_VALUE), with the decoder and seeks behaving normally. -/
def cexEvent : DecodeEvent :=
  { read := ReadResult.packet true none none, decodeFails := false,
    frameDecoded := false, seekOk := true }

/-- Six successive timestamp-free packets. -/
def cexEvents : List DecodeEvent := List.replicate 6 cexEvent

/-- Soundness contract of one loop iteration started from state s: a
continuation preserves the invariant and does not increase the seek
measure; a finished iteration (picture or failure) does not increase it
either. -/
def StepOk (T : Int) (s : DecodeState) : StepRes → Prop
  | StepRes.cont s2 => DecInv T s2 ∧ s2.seeks + phi T s2 ≤ s.seeks + phi T s
  | StepRes.done s2 => s2.seeks + phi T s2 ≤ s.seeks + phi T s
  | StepRes.fail s2 _ => s2.seeks + phi T s2 ≤ s.seeks + phi T s

/-! ## Theorems -/

/-- C1: at the top of decode, a requested frame outside [0, total_frames)
is clamped to the nearest valid frame (0 below, total_frames - 1 above)
when loadNearest holds, and otherwise the call throws the missing-frame
error — the runtime_error throw at lines 777 and 783, the only throw
statement of FFmpegFile.cpp. -/
theorem decodeClamp_out_of_range (frames frame : Int) (loadNearest : Bool)
    (h : frame < 0 ∨ frames ≤ frame) :
    decodeClamp frames frame loadNearest =
      (if loadNearest then Except.ok (if frame < 0 then 0 else frames - 1)
       else Except.error "Missing frame") := by
  unfold decodeClamp
  rcases Decidable.em (frame < 0) with h0 | h0
  · simp [h0]
  · have h1 : frames ≤ frame := by omega
    simp [h0, h1]

/-- Witness for C1: frame 12 of a 10-frame stream without loadNearest
throws the missing-frame error. -/
theorem decodeClamp_out_of_range_witness :
    ((12 : Int) < 0 ∨ (10 : Int) ≤ 12) ∧
      decodeClamp 10 12 false = Except.error "Missing frame" := by
  refine ⟨Or.inr (by decide), ?_⟩
  have h := decodeClamp_out_of_range 10 12 false (Or.inr (by decide))
  simpa using h

/-- C2 counterexample: with fps 2/1, timebase 1/1 and start PTS 0 (a
stream holding at least the frames 0 and 1), frame 1 does not survive the
round trip: frame_to_pts(1) = (1*1*1)/(2*1) = 0 and pts_to_frame(0) = 0. -/
theorem ptsToFrame_frameToPts_cex :
    ptsToFrame 2 1 1 1 0 (frameToPts 2 1 1 1 0 1) = 0 ∧ (0 : Int) ≠ 1 := by
  constructor
  · decide
  · decide

/-- C2 (amended): the round trip pts_to_frame(frame_to_pts(f)) = f holds
for positive rate and timebase parameters whenever fps_num * tb_num
divides fps_den * tb_den, that is whenever a frame lasts a whole number of
timebase ticks; with arbitrary positive parameters it can fail. -/
theorem ptsToFrame_frameToPts (fpsNum fpsDen tbNum tbDen startPTS f : Int)
    (h1 : 0 < fpsNum) (h2 : 0 < fpsDen) (h3 : 0 < tbNum) (h4 : 0 < tbDen)
    (hdvd : fpsNum * tbNum ∣ fpsDen * tbDen) :
    ptsToFrame fpsNum fpsDen tbNum tbDen startPTS
      (frameToPts fpsNum fpsDen tbNum tbDen startPTS f) = f := by
  obtain ⟨k, hk⟩ := hdvd
  have hN : fpsNum * tbNum ≠ 0 := by positivity
  have hD : fpsDen * tbDen ≠ 0 := by positivity
  unfold frameToPts ptsToFrame
  have e1 : f * fpsDen * tbDen = fpsNum * tbNum * (f * k) := by
    rw [mul_assoc, hk]; ring
  rw [e1, Int.mul_tdiv_cancel_left _ hN]
  have e2 : (f * k + startPTS - startPTS) * fpsNum * tbNum
      = fpsDen * tbDen * f := by
    rw [hk]; ring
  rw [e2]
  exact Int.mul_tdiv_cancel_left _ hD

/-- Witness for C2 (amended): fps 24/1, timebase 1/24000 (so 24 divides
24000 and each frame lasts 1000 ticks), start PTS 17, frame 7. -/
theorem ptsToFrame_frameToPts_witness :
    (0 : Int) < 24 ∧ (0 : Int) < 1 ∧ (0 : Int) < 1 ∧ (0 : Int) < 24000 ∧
      ((24 : Int) * 1 ∣ (1 : Int) * 24000) ∧
      ptsToFrame 24 1 1 24000 17 (frameToPts 24 1 1 24000 17 7) = 7 :=
  ⟨by decide, by decide, by decide, by decide, by decide,
    ptsToFrame_frameToPts 24 1 1 24000 17 7 (by decide) (by decide)
      (by decide) (by decide) (by decide)⟩

/-- C5 counterexample: a container reporting 5.0042 seconds (5004200
microseconds) at 24 fps with a stream frame count of 5 yields
total_frames = 121, not 5: the duration formula gives 121 and
|121 - 5| > 1, so the stream count is not preferred. -/
theorem getStreamFrames_example_cex :
    getStreamFrames 5004200 24 1 5 0 0 0 0 0 = 121 ∧ (121 : Int) ≠ 5 := by
  constructor
  · decide
  · decide

/-- C5 (amended): when the container reports a nonzero duration and the
duration-derived value (after the clamp) is nonzero, total_frames is
((duration - 1) * fps_num + divisor - 1) / divisor with divisor =
AV_TIME_BASE * fps_den in exact integer arithmetic, except that a positive
stream frame count differing from that value by at most 1 is used instead;
in particular a container reporting 0.209 seconds (5 frames at 24 fps with
the duration rounded up to a millisecond) with a stream count of 5 yields
total_frames = 5, not 6. -/
theorem getStreamFrames_duration (duration fpsNum fpsDen nbFrames
    streamDuration tbNum tbDen startPTS maxPts : Int) (hd : duration ≠ 0)
    (hnz : framesFromDuration duration fpsNum fpsDen nbFrames ≠ 0) :
    getStreamFrames duration fpsNum fpsDen nbFrames streamDuration tbNum tbDen
        startPTS maxPts =
      (if 0 < nbFrames ∧
          (Int.tdiv ((duration - 1) * fpsNum + AV_TIME_BASE * fpsDen - 1)
              (AV_TIME_BASE * fpsDen) - nbFrames).natAbs ≤ 1
       then nbFrames
       else Int.tdiv ((duration - 1) * fpsNum + AV_TIME_BASE * fpsDen - 1)
              (AV_TIME_BASE * fpsDen)) := by
  unfold getStreamFrames
  simp only [hd, if_true, ne_eq, not_false_iff, ite_true, if_neg hnz]
  rfl

/-- Witness for C5 (amended): the corrected boundary example, duration
209000 microseconds at 24 fps with stream count 5, gives 5. -/
theorem getStreamFrames_duration_witness :
    (209000 : Int) ≠ 0 ∧ framesFromDuration 209000 24 1 5 ≠ 0 ∧
      getStreamFrames 209000 24 1 5 0 0 0 0 0 = 5 := by
  refine ⟨by decide, by decide, ?_⟩
  have h := getStreamFrames_duration 209000 24 1 5 0 0 0 0 0
    (by decide) (by decide)
  rw [h]
  decide

/-- C6: getColorspace inspects the metadata keys case-insensitively and in
preference order: a Foundry colorspace key returns its value as-is; else an
Arri color gamma key returns AlexaV3LogC for values beginning with LOG-C
and rec709 for values beginning with REC-709; else the fallback is
Gamma2.2 for YUV sources and Gamma1.8 for RGB sources; and a file carrying
only the lower-case variant of the Foundry or Arri key yields the same
result as one carrying the mixed-case key. -/
theorem getColorspace_preference :
    (∀ (v : String) (rest : List (String × String)) (yuv : Bool),
      getColorspace (("uk.co.thefoundry.Colorspace", v) :: rest) yuv = v) ∧
    (∀ (v : String) (rest : List (String × String)) (yuv : Bool),
      getColorspace (("uk.co.thefoundry.colorspace", v) :: rest) yuv = v) ∧
    (∀ (v : String) (yuv : Bool),
      getColorspace [("com.arri.camera.ColorGammaSxS", v)] yuv =
        (if ciKeyMatch "LOG-C" v then "AlexaV3LogC"
         else if ciKeyMatch "REC-709" v then "rec709"
         else if yuv then "Gamma2.2" else "Gamma1.8")) ∧
    (∀ (v : String) (yuv : Bool),
      getColorspace [("com.arri.camera.colorgammasxs", v)] yuv =
        getColorspace [("com.arri.camera.ColorGammaSxS", v)] yuv) ∧
    (∀ yuv : Bool,
      getColorspace [] yuv = (if yuv then "Gamma2.2" else "Gamma1.8")) := by
  have hf1 : ciKeyMatch "uk.co.thefoundry.Colorspace"
      "uk.co.thefoundry.Colorspace" = true := by decide
  have hf2 : ciKeyMatch "uk.co.thefoundry.Colorspace"
      "uk.co.thefoundry.colorspace" = true := by decide
  have ha0 : ciKeyMatch "uk.co.thefoundry.Colorspace"
      "com.arri.camera.ColorGammaSxS" = false := by decide
  have ha0l : ciKeyMatch "uk.co.thefoundry.Colorspace"
      "com.arri.camera.colorgammasxs" = false := by decide
  have ha1 : ciKeyMatch "com.arri.camera.ColorGammaSxS"
      "com.arri.camera.ColorGammaSxS" = true := by decide
  have ha2 : ciKeyMatch "com.arri.camera.ColorGammaSxS"
      "com.arri.camera.colorgammasxs" = true := by decide
  refine ⟨?_, ?_, ?_, ?_, ?_⟩
  · intro v rest yuv
    simp [getColorspace, avDictGet, hf1]
  · intro v rest yuv
    simp [getColorspace, avDictGet, hf2]
  · intro v yuv
    simp [getColorspace, avDictGet, ha0, ha1]
  · intro v yuv
    simp [getColorspace, avDictGet, ha0, ha0l, ha1, ha2]
  · intro yuv
    simp [getColorspace, avDictGet]

/-- C7 counterexample: with no cached converter, no pending reset, a YUV
source, a successful build and a failing configuration call (result -1),
getConvertCtx keeps the newly built converter in the cache (it is not
reset to null) and the next call returns the cached converter instead of
rebuilding, whatever that next call's inputs are. -/
theorem getConvertCtx_failure_cex :
    (getConvertCtx (ConvState.mk false none) true 7 true (-1)).2.convertCtx
        = some 7 ∧
      (getConvertCtx (ConvState.mk false none) true 7 true (-1)).2.convertCtx
        ≠ none ∧
      (getConvertCtx
          (getConvertCtx (ConvState.mk false none) true 7 true (-1)).2
          true 8 true 0).1 = some 7 := by
  refine ⟨rfl, by decide, rfl⟩

/-- C7 (amended): if the native colorspace-configuration call reports
failure, the error is not handled at all in release builds (only a debug
assertion observes it): the built converter stays cached and is returned,
and the next call to getConvertCtx reuses the cached converter rather
than rebuilding it. -/
theorem getConvertCtx_failure_keeps (st : ConvState) (c : Nat) (cfg : Int)
    (h1 : st.resetConvertCtx = false) (h2 : st.convertCtx = none) :
    (getConvertCtx st true c true cfg).2.convertCtx = some c ∧
      ∀ (yuv2 : Bool) (c2 : Nat) (ok2 : Bool) (cfg2 : Int),
        (getConvertCtx (getConvertCtx st true c true cfg).2 yuv2 c2 ok2
            cfg2).1 = some c := by
  unfold getConvertCtx
  simp [h1, h2]

/-- Witness for C7 (amended): concrete fresh stream state, converter
handle 7, failing configuration result -1. -/
theorem getConvertCtx_failure_keeps_witness :
    (ConvState.mk false none).resetConvertCtx = false ∧
      (ConvState.mk false none).convertCtx = none ∧
      (getConvertCtx (ConvState.mk false none) true 7 true (-1)).2.convertCtx
        = some 7 := by
  refine ⟨rfl, rfl, ?_⟩
  exact (getConvertCtx_failure_keeps (ConvState.mk false none) 7 (-1)
    rfl rfl).1

/-- C8: the output buffer allocated when the first stream is registered
holds width * height * 3 * sample_size bytes regardless of the component
count, while getBufferSize reports numComponents * width * sample_size *
height; for a 4-component stream the reported size strictly exceeds the
allocation, and the two agree exactly when the component count is 3. -/
theorem getBufferSize_vs_allocation (w h bd : Nat) (hw : 0 < w)
    (hh : 0 < h) :
    allocatedBufferSize w h bd < getBufferSize 4 w h bd ∧
      ∀ n : Nat,
        (getBufferSize n w h bd = allocatedBufferSize w h bd ↔ n = 3) := by
  unfold allocatedBufferSize getBufferSize getRowSize pixelDepthOf
  constructor
  · rcases Decidable.em (8 < bd) with hbd | hbd
    · simp only [hbd, if_true]
      nlinarith
    · simp only [hbd, if_false]
      nlinarith
  · intro n
    rcases Decidable.em (8 < bd) with hbd | hbd
    · simp only [hbd, if_true]
      constructor
      · intro hEq
        have h2 : n * (w * 2 * h) = 3 * (w * 2 * h) := by
          calc n * (w * 2 * h) = n * w * 2 * h := by ring
          _ = w * h * 3 * 2 := hEq
          _ = 3 * (w * 2 * h) := by ring
        exact Nat.eq_of_mul_eq_mul_right (by positivity) h2
      · intro hn; subst hn; ring
    · simp only [hbd, if_false]
      constructor
      · intro hEq
        have h2 : n * (w * h) = 3 * (w * h) := by
          calc n * (w * h) = n * w * h := by ring
          _ = w * h * 3 * 1 := hEq
          _ = 3 * (w * h) := by ring
        exact Nat.eq_of_mul_eq_mul_right (by positivity) h2
      · intro hn; subst hn; ring

/-- Witness for C8: a 2 by 3 image at bit depth 8. -/
theorem getBufferSize_vs_allocation_witness :
    (0 : Nat) < 2 ∧ (0 : Nat) < 3 ∧
      allocatedBufferSize 2 3 8 < getBufferSize 4 2 3 8 ∧
      (getBufferSize 4 2 3 8 = allocatedBufferSize 2 3 8 ↔ (4 : Nat) = 3) :=
  ⟨by decide, by decide,
    (getBufferSize_vs_allocation 2 3 8 (by decide) (by decide)).1,
    (getBufferSize_vs_allocation 2 3 8 (by decide) (by decide)).2 4⟩

/-- The unsuported_codec flag of the constructor loop is false for every
input: it is initialised to false and never assigned inside the loop. -/
theorem openLoop_flag (candidates : List CandidateStream) :
    (openLoop candidates).2 = false := by
  unfold openLoop
  suffices h : ∀ (l : List CandidateStream) (acc : Nat × Bool),
      (l.foldl (fun acc c =>
        (if registersStream c then acc.1 + 1 else acc.1, acc.2)) acc).2
        = acc.2 by
    exact h candidates (0, false)
  intro l
  induction l with
  | nil => intro acc; rfl
  | cons c cs ih =>
    intro acc
    simp only [List.foldl_cons]
    exact ih _

/-- C10: whenever the constructor loop registers no video stream, the
stored error message is "unable to find video stream"; the flag that would
select the alternative unsupported-codec message stays false on every
path, so that text is unreachable. -/
theorem openErrorMsg_no_stream (candidates : List CandidateStream)
    (h : (openLoop candidates).1 = 0) :
    (openLoop candidates).2 = false ∧
      openErrorMsg candidates = some "unable to find video stream" := by
  refine ⟨openLoop_flag candidates, ?_⟩
  unfold openErrorMsg
  simp [h, openLoop_flag candidates]

/-- Witness for C10: a container holding a single audio stream. -/
theorem openErrorMsg_no_stream_witness :
    (openLoop [CandidateStream.mk true false true true]).1 = 0 ∧
      openErrorMsg [CandidateStream.mk true false true true]
        = some "unable to find video stream" :=
  ⟨by decide,
    (openErrorMsg_no_stream [CandidateStream.mk true false true true]
      (by decide)).2⟩

/-- Resynchronisation equation: on an invalid landing with a seek in
progress, walkBack decrements the target and reseeks while the target
stays non-negative; at target 0 it either switches PTS to DTS and restarts
from the requested frame (PTS selected and never seen) or fails with the
timing-reference error. -/
theorem walkBack_eq (s : DecodeState) (e : DecodeEvent)
    (hOk : e.seekOk = true) (hL : 0 ≤ s.lastSeekedFrame) :
    walkBack s e =
      (if 1 ≤ s.lastSeekedFrame then
        StepRes.cont { s with lastSeekedFrame := s.lastSeekedFrame - 1,
                              seeks := s.seeks + 1 }
      else if s.tsIsDts = false ∧ s.ptsSeen = false then
        StepRes.cont { s with tsIsDts := true, lastSeekedFrame := s.frame,
                              seeks := s.seeks + 1 }
      else
        StepRes.fail s
          "FFmpeg Reader failed to find timing reference frame, possible file corruption") := by
  unfold walkBack
  rcases Decidable.em (1 ≤ s.lastSeekedFrame) with h1 | h1
  · have h2 : ¬ (s.lastSeekedFrame - 1 < 0) := by omega
    simp [h2, h1, hOk]
  · have h2 : s.lastSeekedFrame - 1 < 0 := by omega
    simp [h2, h1, hOk]

/-- Dispatch of the decode loop on a relevant packet while packets are
still being read. -/
theorem decodeStep_packet_rel (p : DecParams) (s : DecodeState)
    (e : DecodeEvent) (pts dts : Option Int)
    (hread : e.read = ReadResult.packet true pts dts)
    (hin : s.decodeNextFrameIn < s.frames) :
    decodeStep p s e = relevantPacket p s e pts dts := by
  unfold decodeStep
  rw [hread, if_pos hin]
  rfl

/-- A landing that is invalid for every carried timestamp is handled by
the walk-back. -/
theorem resyncPacket_invalid (p : DecParams) (s : DecodeState)
    (e : DecodeEvent) (ts : Option Int)
    (hinv : ∀ t, ts = some t → s.lastSeekedFrame < p.ptsToFrameP t) :
    resyncPacket p s e ts = walkBack s e := by
  rcases ts with _ | t
  · rfl
  · simp only [resyncPacket]
    rw [if_pos (hinv t rfl)]

/-- C4: during resynchronisation after a seek, each invalid landing (the
selected timestamp field empty, or the landing frame past the last seeked
frame) decrements the seek target by one and reseeks; when the target
would go below 0, the reader switches the timestamp field from PTS to DTS
and restarts from the requested frame when no valid PTS was ever seen on
this stream, and otherwise fails with the timing-reference error. -/
theorem decodeStep_resync_invalid (p : DecParams) (s : DecodeState)
    (e : DecodeEvent) (pts dts : Option Int)
    (hread : e.read = ReadResult.packet true pts dts)
    (hin : s.decodeNextFrameIn < s.frames)
    (hseek : 0 ≤ s.lastSeekedFrame)
    (hOk : e.seekOk = true)
    (hinvalid : ∀ t, (if s.tsIsDts then dts else pts) = some t →
      s.lastSeekedFrame < p.ptsToFrameP t) :
    decodeStep p s e =
      (let s1 := if pts ≠ none then { s with ptsSeen := true } else s
       if 1 ≤ s1.lastSeekedFrame then
         StepRes.cont { s1 with lastSeekedFrame := s1.lastSeekedFrame - 1,
                                seeks := s1.seeks + 1 }
       else if s1.tsIsDts = false ∧ s1.ptsSeen = false then
         StepRes.cont { s1 with tsIsDts := true, lastSeekedFrame := s1.frame,
                                seeks := s1.seeks + 1 }
       else
         StepRes.fail s1
           "FFmpeg Reader failed to find timing reference frame, possible file corruption") := by
  rw [decodeStep_packet_rel p s e pts dts hread hin]
  unfold relevantPacket
  rcases pts with _ | pv
  · simp only [ne_eq, not_true, eq_self_iff_true, ite_false, if_neg,
      not_false_iff]
    rw [if_pos hseek]
    rw [resyncPacket_invalid p s e _ hinvalid]
    rw [walkBack_eq s e hOk hseek]
  · simp only [ne_eq, reduceCtorEq, not_false_iff, ite_true, if_pos]
    rw [if_pos (show (0 : Int) ≤
      ({ s with ptsSeen := true } : DecodeState).lastSeekedFrame from hseek)]
    rw [resyncPacket_invalid p _ e _ (by
      intro t ht
      exact hinvalid t ht)]
    rw [walkBack_eq _ e hOk
      (show (0 : Int) ≤
        ({ s with ptsSeen := true } : DecodeState).lastSeekedFrame from hseek)]
    simp

/-- Witness for C4: a stream of 3 frames, seek target 2, a relevant packet
with no timestamps at all; the reader winds the target back to 1 and
reseeks. -/
theorem decodeStep_resync_invalid_witness :
    (cexEvent.read = ReadResult.packet true none none) ∧
      ((-1 : Int) < 3) ∧ ((0 : Int) ≤ 2) ∧ (cexEvent.seekOk = true) ∧
      decodeStep cexParams
          { frames := 3, decodeNextFrameIn := -1, decodeNextFrameOut := -1,
            accumDecodeLatency := 0, ptsSeen := false, tsIsDts := false,
            frame := 2, lastSeekedFrame := 2, awaiting := true,
            retriesRemaining := 1, seeks := 1 } cexEvent =
        StepRes.cont
          { frames := 3, decodeNextFrameIn := -1, decodeNextFrameOut := -1,
            accumDecodeLatency := 0, ptsSeen := false, tsIsDts := false,
            frame := 2, lastSeekedFrame := 1, awaiting := true,
            retriesRemaining := 1, seeks := 2 } := by
  refine ⟨rfl, by decide, by decide, rfl, ?_⟩
  have h := decodeStep_resync_invalid cexParams
    { frames := 3, decodeNextFrameIn := -1, decodeNextFrameOut := -1,
      accumDecodeLatency := 0, ptsSeen := false, tsIsDts := false,
      frame := 2, lastSeekedFrame := 2, awaiting := true,
      retriesRemaining := 1, seeks := 1 } cexEvent none none
    rfl (by decide) (by decide) rfl (by intro t ht; simp at ht)
  rw [h]
  decide

/-- C9: when a packet read returns end of file while decodeNextFrameIn is
still -1 (no resynchronisation since the seek), the frame count is
corrected to -1; with loadNearest the reclamp then targets frame
total_frames - 1 = -2, and no output frame index can satisfy
0 ≤ out < total_frames any more. -/
theorem decodeStep_eof_unsynced (p : DecParams) (s : DecodeState)
    (e : DecodeEvent) (hin : s.decodeNextFrameIn = -1)
    (hfr : -1 < s.frames) (hread : e.read = ReadResult.endOfFile)
    (hload : p.loadNearest = true) (hOk : e.seekOk = true) :
    decodeStep p s e =
        StepRes.cont (seekReset (-2) { s with frames := -1, frame := -2 }) ∧
      (seekReset (-2) { s with frames := -1, frame := -2 }).frames = -1 ∧
      (seekReset (-2) { s with frames := -1, frame := -2 }).frame = -2 ∧
      (seekReset (-2) { s with frames := -1, frame := -2 }).lastSeekedFrame
        = -2 ∧
      ∀ fOut : Int,
        ¬ (0 ≤ fOut ∧
            fOut < (seekReset (-2) { s with frames := -1, frame := -2 }).frames) := by
  have hlt : s.decodeNextFrameIn < s.frames := by omega
  refine ⟨?_, by simp [seekReset], by simp [seekReset], by simp [seekReset],
    ?_⟩
  · simp only [decodeStep, hread, if_pos hlt, hload, if_true, hin, hOk,
      ite_true]
    rw [if_pos hfr]
    norm_num
  · intro fOut
    simp only [seekReset]
    omega

/-- Witness for C9: the hypotheses hold at a concrete state (a 3-frame
stream just after a seek) and the EOF event. -/
theorem decodeStep_eof_unsynced_witness :
    (({ frames := 3, decodeNextFrameIn := -1, decodeNextFrameOut := -1,
        accumDecodeLatency := 0, ptsSeen := false, tsIsDts := false,
        frame := 2, lastSeekedFrame := 2, awaiting := true,
        retriesRemaining := 1, seeks := 1 } :
        DecodeState).decodeNextFrameIn = -1) ∧
      ((-1 : Int) < 3) ∧
      decodeStep { cexParams with loadNearest := true }
          { frames := 3, decodeNextFrameIn := -1, decodeNextFrameOut := -1,
            accumDecodeLatency := 0, ptsSeen := false, tsIsDts := false,
            frame := 2, lastSeekedFrame := 2, awaiting := true,
            retriesRemaining := 1, seeks := 1 }
          { cexEvent with read := ReadResult.endOfFile } =
        StepRes.cont (seekReset (-2)
          { frames := -1, decodeNextFrameIn := -1, decodeNextFrameOut := -1,
            accumDecodeLatency := 0, ptsSeen := false, tsIsDts := false,
            frame := -2, lastSeekedFrame := 2, awaiting := true,
            retriesRemaining := 1, seeks := 1 }) := by
  refine ⟨rfl, by decide, ?_⟩
  exact (decodeStep_eof_unsynced { cexParams with loadNearest := true }
    { frames := 3, decodeNextFrameIn := -1, decodeNextFrameOut := -1,
      accumDecodeLatency := 0, ptsSeen := false, tsIsDts := false,
      frame := 2, lastSeekedFrame := 2, awaiting := true,
      retriesRemaining := 1, seeks := 1 }
    { cexEvent with read := ReadResult.endOfFile }
    rfl (by decide) rfl rfl rfl).1

/-- C3 counterexample: decode of frame 2 on a 3-frame stream with
max_retries 1 (claimed bound max(1,1) + 3 = 4 seeks): six timestamp-free
packets drive the resynchronisation through the PTS-to-DTS switch, and the
call performs 6 seek operations before failing. -/
theorem decode_seek_claim_cex :
    (runDecode cexParams (decodeInit 3 5 0 false false 0 1 2)
        cexEvents).seeks = 6 ∧
      ¬ ((runDecode cexParams (decodeInit 3 5 0 false false 0 1 2)
          cexEvents).seeks ≤ (max 1 (1 : Int)).toNat + (3 : Int).toNat) := by
  constructor
  · decide
  · decide

/-- Bookkeeping inequality for a seek consuming one restart-budget unit. -/
theorem seek_drop (sk l1 l2 b1 b2 W : Nat) (hb : b2 + 1 ≤ b1)
    (hl : l2 < W) : sk + 1 + (l2 + b2 * W) ≤ sk + (l1 + b1 * W) := by
  have h1 : (b2 + 1) * W ≤ b1 * W := Nat.mul_le_mul_right W hb
  have h2 : b2 * W + W = (b2 + 1) * W := by ring
  omega

/-- A seek whose target dropped out of the restart budget. -/
theorem phi_seek_drop (T : Int) (s s2 : DecodeState)
    (hseeks : s2.seeks = s.seeks + 1)
    (hb : restartBudget s2 + 1 ≤ restartBudget s)
    (hl : localBudget s2 < T.toNat + 1) :
    s2.seeks + phi T s2 ≤ s.seeks + phi T s := by
  unfold phi
  rw [hseeks]
  exact seek_drop s.seeks (localBudget s) (localBudget s2) (restartBudget s)
    (restartBudget s2) (T.toNat + 1) hb hl

/-- A seek paid for by a strict drop of the local walk-back budget. -/
theorem phi_seek_same (T : Int) (s s2 : DecodeState)
    (hseeks : s2.seeks = s.seeks + 1)
    (hb : restartBudget s2 = restartBudget s)
    (hl : localBudget s2 + 1 ≤ localBudget s) :
    s2.seeks + phi T s2 ≤ s.seeks + phi T s := by
  unfold phi
  rw [hseeks, hb]
  omega

/-- An iteration without a seek never increases the measure when neither
budget grows. -/
theorem phi_noseek (T : Int) (s s2 : DecodeState)
    (hseeks : s2.seeks = s.seeks)
    (hb : restartBudget s2 ≤ restartBudget s)
    (hl : localBudget s2 ≤ localBudget s) :
    s2.seeks + phi T s2 ≤ s.seeks + phi T s := by
  unfold phi
  rw [hseeks]
  have := Nat.mul_le_mul_right (T.toNat + 1) hb
  omega

/-- Transfer of the step contract along an intermediate state of equal or
smaller measure. -/
theorem stepok_of_le (T : Int) (s s2 : DecodeState) (r : StepRes)
    (h : StepOk T s2 r)
    (hle : s2.seeks + phi T s2 ≤ s.seeks + phi T s) : StepOk T s r := by
  cases r with
  | cont s3 => exact ⟨h.1, le_trans h.2 hle⟩
  | done s3 => exact le_trans h hle
  | fail s3 m => exact le_trans h hle

/-- The local walk-back budget never exceeds the frame count. -/
theorem localBudget_le (T : Int) (s : DecodeState) (hT : 1 ≤ T)
    (h : DecInv T s) : localBudget s ≤ T.toNat := by
  obtain ⟨h1, h2, h3, h4, h5, h6, h7⟩ := h
  unfold localBudget
  split_ifs with hL hA
  · have := h3 hL
    omega
  · have := h4 hA
    omega
  · omega

/-- A seek leaf of the loop body satisfies the step contract when the
target state satisfies the invariant and pays for the seek. -/
theorem stepok_seek_leaf (T : Int) (s s2 : DecodeState) (msg : String)
    (e : DecodeEvent) (hinv : DecInv T s2)
    (hm : s2.seeks + phi T s2 ≤ s.seeks + phi T s) :
    StepOk T s (if e.seekOk then StepRes.cont s2 else StepRes.fail s2 msg) := by
  by_cases hOk : e.seekOk = true
  · rw [if_pos hOk]
    exact ⟨hinv, hm⟩
  · rw [if_neg hOk]
    exact hm

/-- The full seek reset reestablishes the invariant for any target below
the frame bound. -/
theorem seekReset_inv (T : Int) (base : DecodeState) (target : Int)
    (hT : 1 ≤ T) (ha : base.frames ≤ T) (hb : base.frame ≤ T - 1)
    (hc : 0 ≤ target → target ≤ T - 1) :
    DecInv T (seekReset target base) := by
  unfold seekReset DecInv
  dsimp only
  exact ⟨ha, hb, hc, fun _ => by omega, fun hx => by omega,
    fun _ _ => rfl, fun _ _ => rfl⟩

/-- Local budget of a state right after a full seek reset. -/
theorem localBudget_seekReset (target : Int) (s : DecodeState) :
    localBudget (seekReset target s) = (target + 1).toNat := by
  unfold localBudget seekReset
  dsimp only
  rcases Decidable.em (0 ≤ target) with hx | hx
  · rw [if_pos hx]
  · rw [if_neg hx]
    rw [if_pos rfl]
    omega

/-- Contract of the common decode tail (afterDecode): frame bookkeeping on
success, stall detection, and the three stall-recovery paths all preserve
the invariant and the seek measure. -/
theorem afterDecode_bound (p : DecParams) (T : Int) (s : DecodeState)
    (e : DecodeEvent) (att dec : Bool) (hT : 1 ≤ T) (h : DecInv T s)
    (hctx : 0 ≤ s.lastSeekedFrame → ¬ s.decodeNextFrameIn < s.frames) :
    StepOk T s (afterDecode p s e att dec) := by
  obtain ⟨h1, h2, h3, h4, h5, h6, h7⟩ := h
  unfold afterDecode
  by_cases hdec : dec = true
  · rw [if_pos hdec]
    have hloc2 : localBudget
        { s with awaiting := false,
                 decodeNextFrameOut := s.decodeNextFrameOut + 1 }
        ≤ localBudget s := by
      unfold localBudget
      dsimp only
      rcases Decidable.em (0 ≤ s.lastSeekedFrame) with hL | hL
      · rw [if_pos hL, if_pos hL]
      · rw [if_neg hL, if_neg hL, if_neg Bool.false_ne_true]
        exact Nat.zero_le _
    by_cases hfr : s.decodeNextFrameOut = s.frame
    · rw [if_pos hfr]
      exact phi_noseek T s _ rfl (Nat.le_refl _) hloc2
    · rw [if_neg hfr]
      refine ⟨⟨h1, h2, h3, ?_, h5, ?_, ?_⟩,
        phi_noseek T s _ rfl (Nat.le_refl _) hloc2⟩
      · intro hx
        exact absurd hx (by simp)
      · intro hx hy
        exact absurd hy (hctx hx)
      · intro hx
        exact absurd hx (by simp)
  · rw [if_neg hdec]
    by_cases hatt : att = true
    · rw [if_pos hatt]
      by_cases hst : p.codecDelay < s.accumDecodeLatency + 1
      · rw [if_pos hst]
        by_cases haw : s.awaiting = true
        · rw [if_pos haw]
          by_cases hout : (0 : Int) < s.decodeNextFrameOut
          · rw [if_pos hout]
            refine stepok_seek_leaf T s _ _ e ?_ ?_
            · refine seekReset_inv T _ _ hT h1 h2 (fun _ => ?_)
              have := h4 haw
              dsimp only
              omega
            · refine phi_seek_same T s _ rfl rfl ?_
              rw [localBudget_seekReset]
              have hL : ¬ 0 ≤ s.lastSeekedFrame := by
                intro hx
                have := h7 haw hx
                omega
              unfold localBudget
              rw [if_neg hL, if_pos haw]
              dsimp only
              omega
          · rw [if_neg hout]
            by_cases hr : 0 < s.retriesRemaining
            · rw [if_pos hr]
              refine stepok_seek_leaf T s _ _ e ?_ ?_
              · exact seekReset_inv T _ _ hT h1 h2 (fun _ => h2)
              · refine phi_seek_drop T s _ rfl ?_ ?_
                · unfold restartBudget seekReset
                  dsimp only
                  omega
                · rw [localBudget_seekReset]
                  dsimp only
                  omega
            · rw [if_neg hr]
              exact Nat.le_refl _
        · rw [if_neg haw]
          by_cases hr : 0 < s.retriesRemaining
          · rw [if_pos hr]
            refine stepok_seek_leaf T s _ _ e ?_ ?_
            · exact seekReset_inv T _ _ hT h1 h2 (fun _ => h2)
            · refine phi_seek_drop T s _ rfl ?_ ?_
              · unfold restartBudget seekReset
                dsimp only
                omega
              · rw [localBudget_seekReset]
                dsimp only
                omega
          · rw [if_neg hr]
            exact Nat.le_refl _
      · rw [if_neg hst]
        exact ⟨⟨h1, h2, h3, h4, h5, h6, h7⟩, Nat.le_refl _⟩
    · rw [if_neg hatt]
      exact ⟨⟨h1, h2, h3, h4, h5, h6, h7⟩, Nat.le_refl _⟩

/-- Feeding a packet to the decoder (and the tail behind it) respects the
step contract; no seek is in progress at this point. -/
theorem feedPacket_bound (p : DecParams) (T : Int) (s : DecodeState)
    (e : DecodeEvent) (hT : 1 ≤ T) (h : DecInv T s)
    (hL : s.lastSeekedFrame < 0) : StepOk T s (feedPacket p s e) := by
  obtain ⟨h1, h2, h3, h4, h5, h6, h7⟩ := h
  unfold feedPacket
  have hinv2 : DecInv T
      { s with decodeNextFrameIn := s.decodeNextFrameIn + 1 } := by
    refine ⟨h1, h2, h3, h4, ?_, ?_, h7⟩
    · intro hx
      dsimp only at hx ⊢
      have := h5 hx
      omega
    · intro hx
      exact absurd hx (by dsimp only; omega)
  by_cases hdf : e.decodeFails = true
  · rw [if_pos hdf]
    exact Nat.le_refl _
  · rw [if_neg hdf]
    refine stepok_of_le T s _ _
      (afterDecode_bound p T _ e true e.frameDecoded hT hinv2 ?_)
      (Nat.le_refl _)
    intro hx
    exact absurd hx (by dsimp only; omega)

/-- The walk-back on an invalid landing respects the step contract. -/
theorem walkBack_bound (T : Int) (s : DecodeState) (e : DecodeEvent)
    (hT : 1 ≤ T) (h : DecInv T s) (hL : 0 ≤ s.lastSeekedFrame) :
    StepOk T s (walkBack s e) := by
  obtain ⟨h1, h2, h3, h4, h5, h6, h7⟩ := h
  unfold walkBack
  by_cases hend : s.lastSeekedFrame - 1 < 0
  · rw [if_pos hend]
    by_cases hsw : s.tsIsDts = false ∧ s.ptsSeen = false
    · rw [if_pos hsw]
      refine stepok_seek_leaf T s _ _ e ?_ ?_
      · refine ⟨h1, h2, fun _ => h2, h4, h5, ?_, ?_⟩
        · intro hx hy
          exact h6 hL hy
        · intro ha hx
          exact h7 ha hL
      · refine phi_seek_drop T s _ rfl ?_ ?_
        · unfold restartBudget
          dsimp only
          rw [if_pos rfl, hsw.1, if_neg Bool.false_ne_true]
          omega
        · unfold localBudget
          dsimp only
          split_ifs with hx hy
          · omega
          · have := h4 hy
            omega
          · omega
    · rw [if_neg hsw]
      exact Nat.le_refl _
  · rw [if_neg hend]
    refine stepok_seek_leaf T s _ _ e ?_ ?_
    · refine ⟨h1, h2, ?_, h4, h5, ?_, ?_⟩
      · intro _
        dsimp only
        have := h3 hL
        omega
      · intro hx hy
        exact h6 hL hy
      · intro ha hx
        exact h7 ha hL
    · refine phi_seek_same T s _ rfl rfl ?_
      unfold localBudget
      dsimp only
      rw [if_pos hL, if_pos (by omega : (0:Int) ≤ s.lastSeekedFrame - 1)]
      omega

/-- Resynchronisation against one packet timestamp respects the step
contract. -/
theorem resyncPacket_bound (p : DecParams) (T : Int) (s : DecodeState)
    (e : DecodeEvent) (ts : Option Int) (hT : 1 ≤ T) (h : DecInv T s)
    (hL : 0 ≤ s.lastSeekedFrame) (hin : s.decodeNextFrameIn < s.frames) :
    StepOk T s (resyncPacket p s e ts) := by
  obtain ⟨h1, h2, h3, h4, h5, h6, h7⟩ := h
  rcases ts with _ | t
  · exact walkBack_bound T s e hT ⟨h1, h2, h3, h4, h5, h6, h7⟩ hL
  · simp only [resyncPacket]
    by_cases hover : s.lastSeekedFrame < p.ptsToFrameP t
    · rw [if_pos hover]
      exact walkBack_bound T s e hT ⟨h1, h2, h3, h4, h5, h6, h7⟩ hL
    · rw [if_neg hover]
      have hland : p.ptsToFrameP t ≤ s.lastSeekedFrame := by omega
      have hfr0 : (0:Int) ≤ s.frames := by
        by_contra hneg
        have := h5 (by omega)
        omega
      refine stepok_of_le T s _ _
        (feedPacket_bound p T _ e hT ?_ (by dsimp only; omega)) ?_
      · refine ⟨h1, h2, ?_, ?_, ?_, ?_, ?_⟩
        · intro hx
          dsimp only at hx ⊢
          omega
        · intro _
          dsimp only
          have := h3 hL
          omega
        · intro hx
          dsimp only at hx
          omega
        · intro hx
          dsimp only at hx ⊢
          omega
        · intro ha hx
          dsimp only at hx ⊢
          omega
      · refine phi_noseek T s _ rfl (Nat.le_refl _) ?_
        unfold localBudget
        dsimp only
        rw [if_pos hL, if_neg (by omega : ¬ (0:Int) ≤ -1)]
        split_ifs with hx
        · omega
        · omega

/-- Handling one relevant packet respects the step contract. -/
theorem relevantPacket_bound (p : DecParams) (T : Int) (s : DecodeState)
    (e : DecodeEvent) (pts dts : Option Int) (hT : 1 ≤ T) (h : DecInv T s)
    (hin : s.decodeNextFrameIn < s.frames) :
    StepOk T s (relevantPacket p s e pts dts) := by
  unfold relevantPacket
  by_cases hp : pts ≠ none
  · rw [if_pos hp]
    have h2 : DecInv T { s with ptsSeen := true } := h
    by_cases h0 : (0:Int) ≤
        ({ s with ptsSeen := true } : DecodeState).lastSeekedFrame
    · rw [if_pos h0]
      exact stepok_of_le T s _ _
        (resyncPacket_bound p T _ e _ hT h2 h0 hin) (Nat.le_refl _)
    · rw [if_neg h0]
      exact stepok_of_le T s _ _
        (feedPacket_bound p T _ e hT h2 (by omega)) (Nat.le_refl _)
  · rw [if_neg hp]
    by_cases h0 : (0:Int) ≤ s.lastSeekedFrame
    · rw [if_pos h0]
      exact resyncPacket_bound p T s e _ hT h h0 hin
    · rw [if_neg h0]
      exact feedPacket_bound p T s e hT h (by omega)

/-- One iteration of the decode loop preserves the invariant and never
increases the seek measure, whatever the environment does. -/
theorem decodeStep_bound (p : DecParams) (T : Int) (s : DecodeState)
    (e : DecodeEvent) (hT : 1 ≤ T) (h : DecInv T s) :
    StepOk T s (decodeStep p s e) := by
  obtain ⟨h1, h2, h3, h4, h5, h6, h7⟩ := h
  unfold decodeStep
  by_cases hin : s.decodeNextFrameIn < s.frames
  · rw [if_pos hin]
    have hfr0 : (0:Int) ≤ s.frames := by
      by_contra hneg
      have := h5 (by omega)
      omega
    split
    · -- end of file
      by_cases hln : p.loadNearest = true
      · rw [if_pos hln]
        refine stepok_seek_leaf T s _ _ e ?_ ?_
        · refine seekReset_inv T _ _ hT ?_ ?_ ?_
          · dsimp only
            omega
          · dsimp only
            omega
          · intro _
            dsimp only
            omega
        · refine phi_seek_drop T s _ rfl ?_ ?_
          · unfold restartBudget seekReset
            dsimp only
            omega
          · rw [localBudget_seekReset]
            dsimp only
            omega
      · rw [if_neg hln]
        refine ⟨⟨?_, h2, h3, h4, ?_, ?_, ?_⟩, ?_⟩
        · dsimp only
          omega
        · intro hx
          dsimp only at hx ⊢
          omega
        · intro hx hy
          dsimp only at hx hy ⊢
          omega
        · intro ha hx
          dsimp only at hx ⊢
          exact h7 ha hx
        · refine phi_noseek T s _ rfl ?_ (Nat.le_refl _)
          unfold restartBudget
          dsimp only
          omega
    · -- read error
      exact Nat.le_refl _
    · -- packet
      rename_i rel pts dts heq
      by_cases hrel : rel = true
      · rw [if_pos hrel]
        exact relevantPacket_bound p T s e pts dts hT
          ⟨h1, h2, h3, h4, h5, h6, h7⟩ hin
      · rw [if_neg hrel]
        exact ⟨⟨h1, h2, h3, h4, h5, h6, h7⟩, Nat.le_refl _⟩
  · rw [if_neg hin]
    by_cases hdf : e.decodeFails = true
    · rw [if_pos hdf]
      exact Nat.le_refl _
    · rw [if_neg hdf]
      exact afterDecode_bound p T s e true e.frameDecoded hT
        ⟨h1, h2, h3, h4, h5, h6, h7⟩ (fun _ => hin)

/-- Along any finite event sequence the loop accumulates at most the seek
potential of its starting state. -/
theorem runDecode_seeks (p : DecParams) (T : Int) (hT : 1 ≤ T) :
    ∀ (events : List DecodeEvent) (s : DecodeState), DecInv T s →
      (runDecode p s events).seeks ≤ s.seeks + phi T s := by
  intro events
  induction events with
  | nil =>
    intro s hinv
    exact Nat.le_add_right _ _
  | cons e es ih =>
    intro s hinv
    have hb := decodeStep_bound p T s e hT hinv
    simp only [runDecode]
    cases hstep : decodeStep p s e with
    | cont s2 =>
      rw [hstep] at hb
      exact le_trans (ih s2 hb.1) hb.2
    | done s2 =>
      rw [hstep] at hb
      exact le_trans (Nat.le_add_right _ _) hb
    | fail s2 m =>
      rw [hstep] at hb
      exact le_trans (Nat.le_add_right _ _) hb

/-- C3 (amended): every call to decode terminates in the sense that along
any finite sequence of packet-read and decoder events it performs at most
(max(1, max_retries) + total_frames + 3) * (total_frames + 1) seek
operations: the seek target strictly decreases between restart seeks, the
PTS-to-DTS timestamp-source switch restarts resynchronisation at most
once per call, each stall-recovery reseek from the requested frame
consumes one unit of the retry budget, and each end-of-file correction
strictly shrinks the frame count. The bound max(1, max_retries) +
total_frames claimed by the specification is exceeded when the
timestamp-source switch restarts resynchronisation from the target. -/
theorem decode_seek_bound (p : DecParams)
    (T prevIn prevOut maxRetries f : Int) (ptsSeen0 tsIsDts0 : Bool)
    (latency0 : Nat) (events : List DecodeEvent) (hT : 1 ≤ T) (hf0 : 0 ≤ f)
    (hf1 : f ≤ T - 1) :
    (runDecode p
        (decodeInit T prevIn prevOut ptsSeen0 tsIsDts0 latency0 maxRetries f)
        events).seeks
      ≤ ((max 1 maxRetries).toNat + T.toNat + 3) * (T.toNat + 1) := by
  have hrhs : ((max 1 maxRetries).toNat + T.toNat + 3) * (T.toNat + 1)
      = ((max 1 maxRetries).toNat + 1 + (T.toNat + 1)) * (T.toNat + 1)
        + (T.toNat + 1) := by ring
  unfold decodeInit
  dsimp only
  by_cases hne : f ≠ prevOut
  · rw [if_pos hne]
    have hinv : DecInv T (seekReset f (decodeBase T prevIn prevOut ptsSeen0
        tsIsDts0 latency0 maxRetries f)) := by
      refine seekReset_inv T _ f hT ?_ ?_ (fun _ => hf1)
      · unfold decodeBase
        dsimp only
        omega
      · unfold decodeBase
        dsimp only
        exact hf1
    refine le_trans (runDecode_seeks p T hT events _ hinv) ?_
    rw [hrhs]
    unfold phi
    rw [localBudget_seekReset]
    have hb2 : restartBudget (seekReset f (decodeBase T prevIn prevOut
          ptsSeen0 tsIsDts0 latency0 maxRetries f))
        ≤ (max 1 maxRetries).toNat + 1 + (T.toNat + 1) := by
      unfold restartBudget seekReset decodeBase
      dsimp only
      split_ifs <;> omega
    have hmul := Nat.mul_le_mul_right (T.toNat + 1) hb2
    have hseeks : (seekReset f (decodeBase T prevIn prevOut ptsSeen0
        tsIsDts0 latency0 maxRetries f)).seeks = 1 := rfl
    have hfle : (f + 1).toNat ≤ T.toNat := by omega
    omega
  · rw [if_neg hne]
    have hinv : DecInv T (decodeBase T prevIn prevOut ptsSeen0 tsIsDts0
        latency0 maxRetries f) := by
      unfold decodeBase
      refine ⟨?_, ?_, ?_, ?_, ?_, ?_, ?_⟩ <;> dsimp only
      · omega
      · exact hf1
      · intro hx
        omega
      · intro hx
        simp at hx
      · intro hx
        omega
      · intro hx hy
        omega
      · intro ha
        simp at ha
    refine le_trans (runDecode_seeks p T hT events _ hinv) ?_
    rw [hrhs]
    unfold phi localBudget restartBudget decodeBase
    dsimp only
    rw [if_neg (by omega : ¬ (0:Int) ≤ -1), if_neg Bool.false_ne_true]
    have hb2 : (max 1 maxRetries).toNat
          + (if tsIsDts0 = true then 0 else 1) + ((T:Int) + 1).toNat
        ≤ (max 1 maxRetries).toNat + 1 + (T.toNat + 1) := by
      split_ifs <;> omega
    have hmul := Nat.mul_le_mul_right (T.toNat + 1) hb2
    omega

/-- Witness for C3 (amended): the bound instantiated for a 3-frame stream,
requested frame 1, retry budget 1, and an event sequence that ends at
once. -/
theorem decode_seek_bound_witness :
    (1:Int) ≤ 3 ∧ (0:Int) ≤ 1 ∧ (1:Int) ≤ 3 - 1 ∧
      (runDecode cexParams
          (decodeInit 3 0 0 false false 0 1 1) []).seeks
        ≤ ((max 1 (1:Int)).toNat + (3:Int).toNat + 3) * ((3:Int).toNat + 1) :=
  ⟨by decide, by decide, by decide,
    decode_seek_bound cexParams 3 0 0 1 1 false false 0 [] (by decide)
      (by decide) (by decide)⟩

end FFmpegFileM
